import Mathlib

/-!
Verification of `atlas/generators.py` (the choice-resolution engine of the
atlas repository).  The definitions below are a shallow embedding of the
code: the `Generator.generate` driver loop, the instrumentation compiler
`compile_func` together with `get_op_id` and `make_strategy`, and the
`Generator` facade (`__init__`, `__call__`, `set_strategy`).  The concrete
strategy classes (`DfsStrategy`, `RandStrategy`) and the registry helpers
(`register_group`, `get_group_by_name`) live in modules that are not part
of the provided sources; where a property needs them they are modelled
from the specification and marked as such in their doc comments.
-/

set_option autoImplicit false

namespace Atlas

/-- Events observed during one `Generator.generate` episode
(generators.py lines 161-183): `init`, `init_run`, `finish_run` and
`finish` are the strategy lifecycle calls made by the loop, `call` marks
an invocation of the compiled callable, and `yld a` is the output `a`
yielded to the consumer. -/
inductive Event (α : Type) where
  | init
  | init_run
  | call
  | yld (a : α)
  | finish_run
  | finish
deriving DecidableEq

/-- The strategy lifecycle interface used by `Generator.generate`
(`init`, `is_finished`, `init_run`, `finish_run`, `finish`), modelled as
pure transformers of a strategy-state type `σ`. -/
structure StratOps (σ : Type) where
  init : σ → σ
  is_finished : σ → Bool
  init_run : σ → σ
  finish_run : σ → σ
  finish : σ → σ

/-- The `while not self.strategy.is_finished()` loop of
`Generator.generate` (generators.py lines 178-181), instrumented to record
the event trace.  The compiled callable is `compiled : σ → Option (α × σ)`
(`none` models a run that raises).  `fuel` bounds the number of loop
iterations; the Python loop has no such bound, so a `none` result means
the loop either exceeded the fuel or a run raised, and a `some` result is
a faithful record of a completed loop. -/
def generateLoop {σ α : Type} (ops : StratOps σ) (compiled : σ → Option (α × σ)) :
    Nat → σ → Option (List (Event α) × σ)
  | 0, _ => none
  | fuel + 1, st =>
    if ops.is_finished st then some ([], st)
    else
      match compiled (ops.init_run st) with
      | none => none
      | some (out, st2) =>
        match generateLoop ops compiled fuel (ops.finish_run st2) with
        | none => none
        | some (evs, st3) =>
          some (Event.init_run :: Event.call :: Event.yld out :: Event.finish_run :: evs, st3)

/-- `Generator.generate` (generators.py lines 161-183) when the consumer
drains the iterator to completion: `self.strategy.init()`, the run loop,
then `self.strategy.finish()`.  Returns the event trace and the final
strategy state. -/
def generate {σ α : Type} (ops : StratOps σ) (compiled : σ → Option (α × σ))
    (fuel : Nat) (st0 : σ) : Option (List (Event α) × σ) :=
  match generateLoop ops compiled fuel (ops.init st0) with
  | none => none
  | some (evs, st) => some (Event.init :: evs ++ [Event.finish], ops.finish st)

/-- The block of events produced by one iteration of the `generate` loop
that yields output `a`. -/
def runBlock {α : Type} (a : α) : List (Event α) :=
  [Event.init_run, Event.call, Event.yld a, Event.finish_run]

/-- The shape of a full `generate` episode that yields `outs`: one `init`,
one run block per output, one `finish`. -/
def episodeShape {α : Type} (outs : List α) : List (Event α) :=
  Event.init :: (outs.map runBlock).flatten ++ [Event.finish]

/-- The outputs carried by the `yld` events of a trace. -/
def outputsOf {α : Type} (tr : List (Event α)) : List α :=
  tr.filterMap (fun e => match e with | Event.yld a => some a | _ => none)

/-- Recognizer for the `init` event. -/
def isInitEv {α : Type} : Event α → Bool
  | Event.init => true
  | _ => false

/-- Recognizer for the `finish` event. -/
def isFinishEv {α : Type} : Event α → Bool
  | Event.finish => true
  | _ => false

/-- The events executed by `Generator.generate` when the consumer abandons
the iteration after receiving `k` outputs.  CPython then calls `close()` on
the suspended generator, which raises `GeneratorExit` at the `yield`
statement (generators.py line 180); since `generate` has no
`try`/`finally`, nothing after that `yield` runs.  Hence the executed
events are exactly the prefix of the episode up to and including the
`k`-th `yld` (or the whole episode if it ends before `k` outputs). -/
def abandonAux {σ α : Type} (ops : StratOps σ) (compiled : σ → Option (α × σ)) :
    Nat → Nat → σ → Option (List (Event α))
  | 0, _, _ => none
  | fuel + 1, k, st =>
    if ops.is_finished st then some [Event.finish]
    else
      match compiled (ops.init_run st) with
      | none => none
      | some (out, st2) =>
        if k ≤ 1 then some [Event.init_run, Event.call, Event.yld out]
        else
          match abandonAux ops compiled fuel (k - 1) (ops.finish_run st2) with
          | none => none
          | some evs =>
            some (Event.init_run :: Event.call :: Event.yld out :: Event.finish_run :: evs)

/-- The event trace of `Generator.generate` abandoned by the consumer
after `k` outputs (see `abandonAux`). -/
def generateAbandon {σ α : Type} (ops : StratOps σ) (compiled : σ → Option (α × σ))
    (k fuel : Nat) (st0 : σ) : Option (List (Event α)) :=
  (abandonAux ops compiled fuel k (ops.init st0)).map (Event.init :: ·)

/-! ## The depth-first exhaustive strategy

`DfsStrategy` lives in `atlas/strategies`, which is not among the provided
sources; it is modelled here from the specification (spec sections 3 and
4.3). -/

/-- Modelled from the spec: a Trace Frame of the depth-first strategy
(spec section 3): domain snapshot size, selected index, exhausted flag. -/
structure Frame where
  size : Nat
  idx : Nat
  exhausted : Bool
deriving DecidableEq

/-- Modelled from the spec: the state of the depth-first strategy (spec
sections 4.3): the trace stack (root first), the per-run replay cursor,
and the finished flag set when backtracking empties the stack. -/
structure DfsState where
  stack : List Frame
  cursor : Nat
  finished : Bool
deriving DecidableEq

/-- Errors of the depth-first resolver (spec sections 4.3 and 7). -/
inductive DfsErr where
  | emptyDomain
  | nonDeterministicDomain
  | frameIndexOutOfRange
deriving DecidableEq

/-- Modelled from the spec: `start()` of the depth-first strategy
allocates a fresh, empty trace stack (spec section 4.3). -/
def dfsInit (_ : DfsState) : DfsState := ⟨[], 0, false⟩

/-- Modelled from the spec: `run_start()` resets the replay cursor to 0
(spec section 4.3). -/
def dfsInitRun (st : DfsState) : DfsState := { st with cursor := 0 }

/-- Modelled from the spec: the backtracking step of `run_end()` (spec
section 4.3): pop exhausted frames from the deep end of the stack; if the
stack empties, return `none` (episode finished); otherwise increment the
new top frame's selected index, marking it exhausted when the index
reaches size - 1. -/
def bumpLast : List Frame → Option (List Frame)
  | [] => none
  | f :: rest =>
    match bumpLast rest with
    | some rest1 => some (f :: rest1)
    | none =>
      if f.exhausted then none
      else some [⟨f.size, f.idx + 1, f.idx + 1 == f.size - 1⟩]

/-- Modelled from the spec: `run_end()` of the depth-first strategy (spec
section 4.3): backtrack; if the stack empties, mark the episode
finished. -/
def dfsFinishRun (st : DfsState) : DfsState :=
  match bumpLast st.stack with
  | none => { st with stack := [], finished := true }
  | some s1 => { st with stack := s1 }

/-- Modelled from the spec: `finished()` of the depth-first strategy (spec
section 4.3). -/
def dfsIsFinished (st : DfsState) : Bool := st.finished

/-- Modelled from the spec: `stop()` of the depth-first strategy clears
the trace stack (spec section 4.3). -/
def dfsFinish (st : DfsState) : DfsState := { st with stack := [] }

/-- Modelled from the spec: the depth-first resolver at a choice site
offered the candidate domain `dom` (spec section 4.3).  An empty domain
fails; while the cursor is below the stack depth the recorded decision is
replayed (checking the recorded domain size); at the frontier a new frame
is pushed and the first candidate returned. -/
def dfsSelect {α : Type} (dom : List α) (st : DfsState) : Except DfsErr (α × DfsState) :=
  match dom with
  | [] => .error .emptyDomain
  | v0 :: _ =>
    let n := dom.length
    if st.cursor < st.stack.length then
      let f := st.stack.getD st.cursor ⟨0, 0, false⟩
      if f.size ≠ n then .error .nonDeterministicDomain
      else
        match dom.get? f.idx with
        | some v => .ok (v, { st with cursor := st.cursor + 1 })
        | none => .error .frameIndexOutOfRange
    else
      .ok (v0, { st with stack := st.stack ++ [⟨n, 0, n == 1⟩], cursor := st.cursor + 1 })

/-- The lifecycle of the depth-first strategy packaged for `generate`. -/
def dfsOps : StratOps DfsState :=
  ⟨dfsInit, dfsIsFinished, dfsInitRun, dfsFinishRun, dfsFinish⟩

/-- A fresh depth-first strategy state. -/
def dfs0 : DfsState := ⟨[], 0, false⟩

/-- The generator function of the spec's concrete scenario, compiled
against the depth-first strategy: `s = ""; for i in range(length):
s += Select(["0", "1"]); return s`, with `Select` bound to the
depth-first resolver.  The accumulator `s` threads left to right exactly
as the Python loop does. -/
def binString : Nat → String → DfsState → Except DfsErr (String × DfsState)
  | 0, s, st => .ok (s, st)
  | Nat.succ k, s, st =>
    match dfsSelect ["0", "1"] st with
    | .error e => .error e
    | .ok (b, st1) => binString k (s ++ b) st1

/-- The compiled binary-string generator as a callable for `generate`:
invoked with argument `length`, threading the strategy state. -/
def binGen (length : Nat) : DfsState → Option (String × DfsState) :=
  fun st => (binString length "" st).toOption

/-! ## The instrumentation compiler

A mini Python expression AST sufficient for the constructs `compile_func`
inspects: name references, string and numeric literals, and call
expressions with positional and keyword arguments (a keyword with `none`
as its name models a `**kwargs` splat, whose `kw.arg` is `None`). -/

mutual
inductive Expr where
  | name (id : String)
  | strLit (s : String)
  | num (n : Int)
  | call (fn : Expr) (args : ExprList) (kws : KwList)
inductive ExprList where
  | nil
  | cons (e : Expr) (es : ExprList)
inductive KwList where
  | nil
  | cons (arg : Option String) (v : Expr) (rest : KwList)
end

/-- A single-quote character, as `astunparse` renders string literals. -/
def sq : String := "\x27"

/-- Comma-separated rendering of argument fragments. -/
def joinComma (xs : List String) : String := String.intercalate ", " xs

mutual
/-- A small stand-in for `astunparse.unparse`, used only to build the
error message of `get_op_id`. -/
def render : Expr → String
  | .name s => s
  | .strLit s => sq ++ s ++ sq
  | .num n => toString n
  | .call fn args kws => render fn ++ "(" ++ joinComma (renderArgs args ++ renderKws kws) ++ ")"
def renderArgs : ExprList → List String
  | .nil => []
  | .cons e es => render e :: renderArgs es
def renderKws : KwList → List String
  | .nil => []
  | .cons a v rest =>
    (match a with
     | some s => s ++ "=" ++ render v
     | none => "**" ++ render v) :: renderKws rest
end

/-- The message of the exception raised by `get_op_id` (generators.py
line 19) when the value passed to the reserved keyword `oid` is not a
string literal. -/
def oidErrMsg (n_call : Expr) : String :=
  "Value passed to \x27oid\x27 must be a string in " ++ render n_call

/-- The check `isinstance(kw.value, ast.Str)` of `get_op_id`
(generators.py lines 18-21): a string literal yields its value, anything
else raises. -/
def oidCheck (n_call : Expr) : Expr → Except String (Option String)
  | .strLit s => .ok (some s)
  | _ => .error (oidErrMsg n_call)

/-- The keyword scan of `get_op_id` (generators.py lines 16-23): find the
first keyword named `oid` and check its value. -/
def getOidFromKws (n_call : Expr) : KwList → Except String (Option String)
  | .nil => .ok none
  | .cons a v rest =>
    if a = some "oid" then oidCheck n_call v else getOidFromKws n_call rest

/-- `get_op_id` (generators.py lines 15-23): extract the optional site
identifier from the reserved keyword argument `oid` of a call node. -/
def get_op_id (n_call : Expr) : Except String (Option String) :=
  match n_call with
  | .call _ _ kws => getOidFromKws n_call kws
  | _ => .ok none

/-- The first `oid` keyword value of a keyword list, if any (specification
helper used to state when `get_op_id` fails). -/
def findOid : KwList → Option Expr
  | .nil => none
  | .cons a v rest => if a = some "oid" then some v else findOid rest

/-- Whether an expression is a string literal. -/
def isStrLit : Expr → Bool
  | .strLit _ => true
  | _ => false

/-- The compile-time interface of a strategy used by `compile_func`: its
recognized operation names (`get_known_ops`) and `process_op`, which for a
`(kind, site identifier)` pair returns the new binding name and the
resolver value (of abstract type `ρ`) to bind to it. -/
structure CStrategy (ρ : Type) where
  known_ops : List String
  process_op : String → Option String → String × ρ

/-- Glue for rewriting a call whose callee is not a plain name: assemble
the rewritten callee, positional arguments and keyword arguments,
propagating the first error and concatenating the binding
environments. -/
def combineCall {ρ : Type} (fnR : Except String (Expr × List (String × ρ)))
    (argsR : Except String (ExprList × List (String × ρ)))
    (kwsR : Except String (KwList × List (String × ρ))) :
    Except String (Expr × List (String × ρ)) :=
  match fnR with
  | .error e => .error e
  | .ok (fn1, ops0) =>
    match argsR with
    | .error e => .error e
    | .ok (args1, ops1) =>
      match kwsR with
      | .error e => .error e
      | .ok (kws1, ops2) => .ok (.call fn1 args1 kws1, ops0 ++ ops1 ++ ops2)

mutual
/-- The AST walk of `compile_func` (generators.py lines 71-82): every
call expression whose callee is a plain name among the strategy's known
ops has its callee renamed to the binding name returned by
`strategy.process_op(op_kind, op_id)`, and the pair is recorded in the
`ops` environment that `compile_func` merges into the globals of the
emitted callable; all other expressions are traversed unchanged.  Errors
are the exception of `get_op_id`. -/
def rewriteExpr {ρ : Type} (S : CStrategy ρ) : Expr → Except String (Expr × List (String × ρ))
  | .name s => .ok (.name s, [])
  | .strLit s => .ok (.strLit s, [])
  | .num n => .ok (.num n, [])
  | .call (.name id) args kws =>
    if id ∈ S.known_ops then
      match get_op_id (.call (.name id) args kws) with
      | .error e => .error e
      | .ok oid =>
        match rewriteArgs S args with
        | .error e => .error e
        | .ok (args1, ops1) =>
          match rewriteKws S kws with
          | .error e => .error e
          | .ok (kws1, ops2) =>
            .ok (.call (.name (S.process_op id oid).1) args1 kws1,
              S.process_op id oid :: (ops1 ++ ops2))
    else
      match rewriteArgs S args with
      | .error e => .error e
      | .ok (args1, ops1) =>
        match rewriteKws S kws with
        | .error e => .error e
        | .ok (kws1, ops2) => .ok (.call (.name id) args1 kws1, ops1 ++ ops2)
  | .call (.strLit s) args kws =>
    combineCall (rewriteExpr S (.strLit s)) (rewriteArgs S args) (rewriteKws S kws)
  | .call (.num n) args kws =>
    combineCall (rewriteExpr S (.num n)) (rewriteArgs S args) (rewriteKws S kws)
  | .call (.call f a k) args kws =>
    combineCall (rewriteExpr S (.call f a k)) (rewriteArgs S args) (rewriteKws S kws)
def rewriteArgs {ρ : Type} (S : CStrategy ρ) : ExprList → Except String (ExprList × List (String × ρ))
  | .nil => .ok (.nil, [])
  | .cons e es =>
    match rewriteExpr S e with
    | .error err => .error err
    | .ok (e1, o1) =>
      match rewriteArgs S es with
      | .error err => .error err
      | .ok (es1, o2) => .ok (.cons e1 es1, o1 ++ o2)
def rewriteKws {ρ : Type} (S : CStrategy ρ) : KwList → Except String (KwList × List (String × ρ))
  | .nil => .ok (.nil, [])
  | .cons a v rest =>
    match rewriteExpr S v with
    | .error err => .error err
    | .ok (v1, o1) =>
      match rewriteKws S rest with
      | .error err => .error err
      | .ok (r1, o2) => .ok (.cons a v1 r1, o1 ++ o2)
end

mutual
/-- Whether an expression contains no call whose callee is a recognized
operation name of `S` (so the walk of `compile_func` leaves it
untouched). -/
def noRec {ρ : Type} (S : CStrategy ρ) : Expr → Bool
  | .name _ => true
  | .strLit _ => true
  | .num _ => true
  | .call (.name id) args kws =>
    if id ∈ S.known_ops then false else noRecArgs S args && noRecKws S kws
  | .call (.strLit _) args kws => noRecArgs S args && noRecKws S kws
  | .call (.num _) args kws => noRecArgs S args && noRecKws S kws
  | .call (.call f a k) args kws =>
    noRec S (.call f a k) && noRecArgs S args && noRecKws S kws
def noRecArgs {ρ : Type} (S : CStrategy ρ) : ExprList → Bool
  | .nil => true
  | .cons e es => noRec S e && noRecArgs S es
def noRecKws {ρ : Type} (S : CStrategy ρ) : KwList → Bool
  | .nil => true
  | .cons _ v rest => noRec S v && noRecKws S rest
end

/-- A Python function definition as far as `compile_func` is concerned:
its name and the expression carrying its choice sites. -/
structure PyFuncDef where
  name : String
  body : Expr

/-- `compile_func` (generators.py lines 39-90), at the level of this
embedding: walk the function's AST rewriting recognized operator calls,
and return the emitted callable as the rewritten definition together with
the resolver bindings merged into its globals.  Source parsing, decorator
stripping, closure-variable capture and `exec` are the Python plumbing
around this step and have no observable effect beyond it. -/
def compile_func {ρ : Type} (fd : PyFuncDef) (S : CStrategy ρ) :
    Except String (PyFuncDef × List (String × ρ)) :=
  match rewriteExpr S fd.body with
  | .error e => .error e
  | .ok (b, ops) => .ok ({ fd with body := b }, ops)

/-- Dictionary lookup in the emitted resolver bindings (later entries
override earlier ones, as `dict.update` does). -/
def lookupOp {ρ : Type} (ops : List (String × ρ)) (x : String) : Option ρ :=
  ops.foldl (fun acc kv => if kv.1 = x then some kv.2 else acc) none

/-! ## The Generator facade

Strategy instances are Python objects shared by reference; the embedding
makes the heap explicit: a store `List (CStrategy ρ)` holds the strategy
objects and a generator holds an index into it, so that reference
equality is index equality. -/

/-- The argument of `make_strategy` (generators.py line 26): either a
strategy name or an existing `Strategy` instance (a reference into the
strategy store). -/
inductive StratSpec where
  | named (s : String)
  | inst (ref : Nat)

/-- `make_strategy` (generators.py lines 26-36): an instance is returned
as is (the same object); the names `randomized` and `dfs` construct a
fresh instance (appended to the store); any other name raises
`Exception("Unrecognized strategy - ...")`.  `mkD` and `mkR` are the
compile-time contents of `DfsStrategy()` and `RandStrategy()`, whose
classes are outside the provided sources. -/
def make_strategy {ρ : Type} (mkD mkR : CStrategy ρ) :
    StratSpec → List (CStrategy ρ) → Except String (Nat × List (CStrategy ρ))
  | .inst r, store => .ok (r, store)
  | .named s, store =>
    if s = "randomized" then .ok (store.length, store ++ [mkR])
    else if s = "dfs" then .ok (store.length, store ++ [mkD])
    else .error ("Unrecognized strategy - " ++ s)

/-- A `Generator` object (generators.py lines 93-127): the wrapped
function, a reference to its active strategy, the memoized compiled
callable (`_compiled_func`), and its group name. -/
structure GenObj (ρ : Type) where
  func : PyFuncDef
  strategyRef : Nat
  compiledFunc : Option (PyFuncDef × List (String × ρ))
  group : Option String

/-- The process-wide state: the strategy store, the generator objects,
and the group registry. -/
structure GlobalEnv (ρ : Type) where
  strats : List (CStrategy ρ)
  gens : List (GenObj ρ)
  groups : List (String × List Nat)

/-- Modelled from the spec: `lookup_by_group` of the external registry
(spec section 6) — the ordered sequence of generators registered under a
group name, or a `KeyError` (here `none`) when the group is unknown.  The
registry module `atlas.utils.genutils` is not among the provided
sources. -/
def lookupGroup : List (String × List Nat) → String → Option (List Nat)
  | [], _ => none
  | (g, ms) :: rest, x => if g = x then some ms else lookupGroup rest x

/-- Modelled from the spec: `register_group` of the external registry
(spec section 6) — append the generator to the group's member list,
creating the entry if absent (so a registered group is never empty). -/
def registerGroup : List (String × List Nat) → String → Nat → List (String × List Nat)
  | [], g, i => [(g, [i])]
  | (g0, ms) :: rest, g, i =>
    if g0 = g then (g0, ms ++ [i]) :: rest else (g0, ms) :: registerGroup rest g i

/-- The effect of `set_strategy` on one generator object (generators.py
lines 139-140): replace the strategy reference and clear the memoized
callable. -/
def setGenFields {ρ : Type} (sref : Nat) (g : GenObj ρ) : GenObj ρ :=
  { g with strategyRef := sref, compiledFunc := none }

/-- Point update of the generator list at index `i`. -/
def updGens {ρ : Type} (sref : Nat) : List (GenObj ρ) → Nat → List (GenObj ρ)
  | [], _ => []
  | g :: gs, 0 => setGenFields sref g :: gs
  | g :: gs, i + 1 => g :: updGens sref gs i

/-- `self.strategy = ...; self._compiled_func = None` applied to the
generator at index `i` of the environment. -/
def setStrategyCore {ρ : Type} (env : GlobalEnv ρ) (i sref : Nat) : GlobalEnv ρ :=
  { env with gens := updGens sref env.gens i }

/-- The propagation loop of `set_strategy` (generators.py lines
142-144): each group member receives the same strategy instance with
`as_group=False`, i.e. exactly the core update with the same store
index. -/
def foldCore {ρ : Type} (sref : Nat) (members : List Nat) (env : GlobalEnv ρ) : GlobalEnv ρ :=
  members.foldl (fun e m => setStrategyCore e m sref) env

/-- `Generator.set_strategy` (generators.py lines 128-144): build the
strategy via `make_strategy`, set it on this generator clearing the
cache, and, when `as_group` and the generator has a group, propagate the
same instance (the same store index) to every group member
non-recursively.  A missing group entry surfaces the registry's
`KeyError`. -/
def set_strategy {ρ : Type} (mkD mkR : CStrategy ρ) (env : GlobalEnv ρ) (gref : Nat)
    (spc : StratSpec) (as_group : Bool) : Except String (GlobalEnv ρ) :=
  match make_strategy mkD mkR spc env.strats with
  | .error e => .error e
  | .ok (sref, store1) =>
    let env1 := setStrategyCore { env with strats := store1 } gref sref
    if as_group then
      match (env1.gens.get? gref).bind (fun g => g.group) with
      | none => .ok env1
      | some gname =>
        match lookupGroup env1.groups gname with
        | none => .error ("KeyError: " ++ gname)
        | some members => .ok (foldCore sref members env1)
    else .ok env1

/-- The memoization step shared by `__call__` and `generate`
(generators.py lines 156-157 and 174-175): reuse `_compiled_func` when
present, otherwise compile the function against the active strategy and
cache the result. -/
def ensureCompiled {ρ : Type} (g : GenObj ρ) (S : CStrategy ρ) :
    Except String ((PyFuncDef × List (String × ρ)) × GenObj ρ) :=
  match g.compiledFunc with
  | some c => .ok (c, g)
  | none =>
    match compile_func g.func S with
    | .error e => .error e
    | .ok c => .ok (c, { g with compiledFunc := some c })

/-- The callable the next `__call__` or `generate` of the generator at
`gref` will execute (generators.py lines 156-159): the cached one if
present, else the result of compiling against the active strategy. -/
def nextCallable {ρ : Type} (env : GlobalEnv ρ) (gref : Nat) :
    Option (Except String (PyFuncDef × List (String × ρ))) :=
  match env.gens.get? gref with
  | none => none
  | some g =>
    match env.strats.get? g.strategyRef with
    | none => none
    | some S =>
      match g.compiledFunc with
      | some c => some (.ok c)
      | none => some (compile_func g.func S)

/-- `Generator.__init__` (generators.py lines 98-126): build the strategy
from the `strategy` argument; if a `group` is given and other generators
are already registered under it, share the first member's strategy
instance instead (the `try`/`except KeyError` block), then register in
the group.  The unreachable fallbacks (a registered group is never empty
and holds only valid indices) keep the selector of the first member's
strategy total. -/
def genInit {ρ : Type} (mkD mkR : CStrategy ρ) (env : GlobalEnv ρ) (fd : PyFuncDef)
    (spc : StratSpec) (grp : Option String) : Except String (Nat × GlobalEnv ρ) :=
  match make_strategy mkD mkR spc env.strats with
  | .error e => .error e
  | .ok (sref, store1) =>
    let gref := env.gens.length
    let sref2 :=
      match grp with
      | none => sref
      | some gname =>
        match lookupGroup env.groups gname with
        | none => sref
        | some members =>
          match members.head? with
          | none => sref
          | some m =>
            match env.gens.get? m with
            | none => sref
            | some g0 => g0.strategyRef
    let groups1 :=
      match grp with
      | none => env.groups
      | some gname => registerGroup env.groups gname gref
    .ok (gref, { strats := store1,
                 gens := env.gens ++ [⟨fd, sref2, none, grp⟩],
                 groups := groups1 })

/-! ## Theorems -/

theorem generateLoop_shape {σ α : Type} (ops : StratOps σ) (compiled : σ → Option (α × σ)) :
    ∀ (fuel : Nat) (st : σ) (evs : List (Event α)) (st' : σ),
      generateLoop ops compiled fuel st = some (evs, st') →
      ∃ outs : List α, evs = (outs.map runBlock).flatten := by
  intro fuel
  induction fuel with
  | zero =>
    intro st evs st' h
    simp [generateLoop] at h
  | succ n ih =>
    intro st evs st' h
    rw [generateLoop] at h
    by_cases hf : ops.is_finished st = true
    · rw [if_pos hf] at h
      cases h
      exact ⟨[], rfl⟩
    · rw [if_neg hf] at h
      cases hc : compiled (ops.init_run st) with
      | none => rw [hc] at h; cases h
      | some p =>
        rw [hc] at h
        obtain ⟨out, st2⟩ := p
        dsimp only at h
        cases hl : generateLoop ops compiled n (ops.finish_run st2) with
        | none => rw [hl] at h; cases h
        | some q =>
          rw [hl] at h
          obtain ⟨evs0, st3⟩ := q
          cases h
          obtain ⟨outs, houts⟩ := ih _ _ _ hl
          exact ⟨out :: outs, by simp [houts, runBlock]⟩

theorem runBlocks_countP_init {α : Type} (outs : List α) :
    ((outs.map runBlock).flatten.countP isInitEv) = 0 := by
  induction outs with
  | nil => rfl
  | cons a as ih =>
    rw [List.map_cons, List.flatten_cons, List.countP_append, ih]
    rfl

theorem runBlocks_countP_finish {α : Type} (outs : List α) :
    ((outs.map runBlock).flatten.countP isFinishEv) = 0 := by
  induction outs with
  | nil => rfl
  | cons a as ih =>
    rw [List.map_cons, List.flatten_cons, List.countP_append, ih]
    rfl

theorem episodeShape_countP_init {α : Type} (outs : List α) :
    (episodeShape outs).countP isInitEv = 1 := by
  rw [episodeShape, List.countP_append, List.countP_cons, runBlocks_countP_init]
  rfl

theorem episodeShape_countP_finish {α : Type} (outs : List α) :
    (episodeShape outs).countP isFinishEv = 1 := by
  rw [episodeShape, List.countP_append, List.countP_cons, runBlocks_countP_finish]
  rfl

/-- C1: draining `Generator.generate` to completion brackets exactly one
search episode: the strategy's `init` is called once at the start, each
loop iteration performs `init_run`, one invocation of the bound callable,
a yield of its output, and `finish_run`, and after `is_finished` becomes
true `finish` is called exactly once at the end. -/
theorem generate_brackets_episode {σ α : Type} (ops : StratOps σ)
    (compiled : σ → Option (α × σ)) (fuel : Nat) (st0 : σ)
    (tr : List (Event α)) (stF : σ)
    (h : generate ops compiled fuel st0 = some (tr, stF)) :
    (∃ outs : List α, tr = episodeShape outs) ∧
    tr.countP isInitEv = 1 ∧ tr.countP isFinishEv = 1 := by
  rw [generate] at h
  split at h
  · cases h
  · rename_i evs st heq
    cases h
    obtain ⟨outs, houts⟩ := generateLoop_shape ops compiled fuel _ _ _ heq
    refine ⟨⟨outs, by simp [episodeShape, houts]⟩, ?_, ?_⟩
    · simpa [houts, episodeShape] using episodeShape_countP_init outs
    · simpa [houts, episodeShape] using episodeShape_countP_finish outs

/-- Witness for C1 at a concrete input: the binary-string generator of
length 2 under the depth-first strategy. -/
theorem generate_brackets_episode_witness :
    (∃ outs : List String, episodeShape ["00", "01", "10", "11"] = episodeShape outs) ∧
    (episodeShape (["00", "01", "10", "11"] : List String)).countP isInitEv = 1 ∧
    (episodeShape (["00", "01", "10", "11"] : List String)).countP isFinishEv = 1 :=
  generate_brackets_episode dfsOps (binGen 2) 12 dfs0
    (episodeShape ["00", "01", "10", "11"]) ⟨[], 2, true⟩ (by decide)

/-- C3: the length-2 binary-string generator under the exhaustive (dfs)
strategy yields exactly "00", "01", "10", "11", in that order, and then
terminates (the episode completes with the strategy finished). -/
theorem dfs_two_bit_enumeration :
    (generate dfsOps (binGen 2) 12 dfs0).map (fun p => outputsOf p.1) =
      some ["00", "01", "10", "11"] ∧
    generate dfsOps (binGen 2) 12 dfs0 =
      some (episodeShape ["00", "01", "10", "11"], ⟨[], 2, true⟩) :=
  ⟨rfl, rfl⟩

/-- C4 evidence: a consumer that abandons `generate` after one output
never triggers `finish` — `Generator.generate` has no `try`/`finally`, so
`GeneratorExit` raised at the `yield` skips the `finish()` call. -/
theorem abandoned_generate_skips_finish :
    generateAbandon dfsOps (binGen 2) 1 12 dfs0 =
      some [Event.init, Event.init_run, Event.call, Event.yld "00"] ∧
    Event.finish ∉ [Event.init, Event.init_run, Event.call, Event.yld ("00" : String)] :=
  ⟨rfl, by decide⟩

mutual
theorem noRec_rewrite {ρ : Type} (S : CStrategy ρ) :
    ∀ e : Expr, noRec S e = true → rewriteExpr S e = .ok (e, [])
  | .name s, _ => rfl
  | .strLit s, _ => rfl
  | .num n, _ => rfl
  | .call (.name id) args kws, h => by
    simp only [noRec] at h
    split at h
    · exact absurd h (by simp)
    · rename_i hni
      obtain ⟨h1, h2⟩ := Bool.and_eq_true_iff.mp h
      simp only [rewriteExpr, if_neg hni, noRecArgs_rewrite S args h1,
        noRecKws_rewrite S kws h2, List.append_nil]
  | .call (.strLit s) args kws, h => by
    simp only [noRec] at h
    obtain ⟨h1, h2⟩ := Bool.and_eq_true_iff.mp h
    simp only [rewriteExpr, combineCall, noRecArgs_rewrite S args h1,
      noRecKws_rewrite S kws h2, List.append_nil]
  | .call (.num n) args kws, h => by
    simp only [noRec] at h
    obtain ⟨h1, h2⟩ := Bool.and_eq_true_iff.mp h
    simp only [rewriteExpr, combineCall, noRecArgs_rewrite S args h1,
      noRecKws_rewrite S kws h2, List.append_nil]
  | .call (.call f a k) args kws, h => by
    simp only [noRec] at h
    have hh := Bool.and_eq_true_iff.mp h
    have h01 := Bool.and_eq_true_iff.mp hh.1
    simp only [rewriteExpr, combineCall, noRec_rewrite S (.call f a k) h01.1,
      noRecArgs_rewrite S args h01.2, noRecKws_rewrite S kws hh.2, List.append_nil]
theorem noRecArgs_rewrite {ρ : Type} (S : CStrategy ρ) :
    ∀ es : ExprList, noRecArgs S es = true → rewriteArgs S es = .ok (es, [])
  | .nil, _ => rfl
  | .cons e es, h => by
    simp only [noRecArgs] at h
    obtain ⟨h1, h2⟩ := Bool.and_eq_true_iff.mp h
    simp only [rewriteArgs, noRec_rewrite S e h1, noRecArgs_rewrite S es h2,
      List.append_nil]
theorem noRecKws_rewrite {ρ : Type} (S : CStrategy ρ) :
    ∀ ks : KwList, noRecKws S ks = true → rewriteKws S ks = .ok (ks, [])
  | .nil, _ => rfl
  | .cons a v rest, h => by
    simp only [noRecKws] at h
    obtain ⟨h1, h2⟩ := Bool.and_eq_true_iff.mp h
    simp only [rewriteKws, noRec_rewrite S v h1, noRecKws_rewrite S rest h2,
      List.append_nil]
end

/-- C2: in `compile_func`, a call whose callee name is one of the
strategy's recognized kinds is rewritten to invoke the resolver returned
by `process_op(kind, identifier)` in place of the original callee — the
callee becomes the returned binding name, that name maps to the returned
resolver in the emitted bindings, and all other arguments (positional and
keyword) are preserved unchanged — while a call whose callee name is not
recognized is left untouched.  The hypotheses restrict the arguments to
ones containing no further recognized calls (nested recognized calls are
rewritten by the same rule at their own node). -/
theorem compile_rewrites_recognized_calls {ρ : Type} (S : CStrategy ρ) (id : String)
    (args : ExprList) (kws : KwList) (oid : Option String)
    (hargs : noRecArgs S args = true) (hkws : noRecKws S kws = true)
    (hoid : get_op_id (.call (.name id) args kws) = .ok oid) :
    (id ∈ S.known_ops →
      rewriteExpr S (.call (.name id) args kws) =
        .ok (.call (.name (S.process_op id oid).1) args kws, [S.process_op id oid]) ∧
      lookupOp [S.process_op id oid] (S.process_op id oid).1 =
        some (S.process_op id oid).2) ∧
    (id ∉ S.known_ops →
      rewriteExpr S (.call (.name id) args kws) =
        .ok (.call (.name id) args kws, [])) := by
  constructor
  · intro hin
    constructor
    · simp only [rewriteExpr, if_pos hin, hoid, noRecArgs_rewrite S args hargs,
        noRecKws_rewrite S kws hkws, List.append_nil]
    · simp [lookupOp]
  · intro hout
    simp only [rewriteExpr, if_neg hout, noRecArgs_rewrite S args hargs,
      noRecKws_rewrite S kws hkws, List.append_nil]

/-- Modelled from the spec: the compile-time face of `DfsStrategy`, used
to instantiate witnesses.  It recognizes the `Select` operator (the
operator of the spec's concrete scenario) and `process_op` returns a
binding name derived from the kind together with an opaque resolver
token; the real class lives outside the provided sources. -/
def dfsCompile : CStrategy String :=
  ⟨["Select"], fun kind _ => ("dfs_" ++ kind, "resolver:" ++ kind)⟩

/-- Witness for C2: a recognized `Select` call and an unrecognized `foo`
call under the compile-time depth-first strategy. -/
theorem compile_rewrites_recognized_calls_witness :
    ("Select" ∈ dfsCompile.known_ops →
      rewriteExpr dfsCompile
          (.call (.name "Select") (.cons (.strLit "a") .nil) .nil) =
        .ok (.call (.name (dfsCompile.process_op "Select" none).1)
              (.cons (.strLit "a") .nil) .nil,
            [dfsCompile.process_op "Select" none]) ∧
      lookupOp [dfsCompile.process_op "Select" none]
          (dfsCompile.process_op "Select" none).1 =
        some (dfsCompile.process_op "Select" none).2) ∧
    ("Select" ∉ dfsCompile.known_ops →
      rewriteExpr dfsCompile
          (.call (.name "Select") (.cons (.strLit "a") .nil) .nil) =
        .ok (.call (.name "Select") (.cons (.strLit "a") .nil) .nil, [])) :=
  compile_rewrites_recognized_calls dfsCompile "Select"
    (.cons (.strLit "a") .nil) .nil none (by decide) (by decide) rfl

theorem oidCheck_nonstring (n_call : Expr) (v : Expr) (hs : isStrLit v = false) :
    oidCheck n_call v = .error (oidErrMsg n_call) := by
  cases v with
  | strLit s => simp [isStrLit] at hs
  | name s => rfl
  | num n => rfl
  | call f aa kk => rfl

theorem findOid_nonstring_getOid (n_call : Expr) :
    ∀ (kws : KwList) (v : Expr), findOid kws = some v → isStrLit v = false →
      getOidFromKws n_call kws = .error (oidErrMsg n_call)
  | .nil, v, h, _ => by simp [findOid] at h
  | .cons a w rest, v, h, hs => by
    simp only [findOid] at h
    by_cases ha : a = some "oid"
    · rw [if_pos ha] at h
      cases h
      rw [getOidFromKws, if_pos ha]
      exact oidCheck_nonstring n_call w hs
    · rw [if_neg ha] at h
      rw [getOidFromKws, if_neg ha]
      exact findOid_nonstring_getOid n_call rest v h hs

/-- C7 (amended): if a recognized choice-site call carries the reserved
keyword `oid` whose value is not a string literal, binding fails eagerly
during `compile_func` with the exception message "Value passed to 'oid'
must be a string in <call>" — so the failure surfaces when the callable
is first ensured, before any run of a bound callable can execute. -/
theorem oid_nonliteral_fails_compile_eagerly {ρ : Type} (S : CStrategy ρ)
    (nm id : String) (args : ExprList) (kws : KwList) (v : Expr)
    (hid : id ∈ S.known_ops)
    (hfind : findOid kws = some v) (hstr : isStrLit v = false)
    (sref : Nat) (grp : Option String) :
    compile_func ⟨nm, .call (.name id) args kws⟩ S =
      .error (oidErrMsg (.call (.name id) args kws)) ∧
    ensureCompiled ⟨⟨nm, .call (.name id) args kws⟩, sref, none, grp⟩ S =
      .error (oidErrMsg (.call (.name id) args kws)) := by
  have hrw : rewriteExpr S (.call (.name id) args kws) =
      .error (oidErrMsg (.call (.name id) args kws)) := by
    simp only [rewriteExpr, if_pos hid, get_op_id,
      findOid_nonstring_getOid (.call (.name id) args kws) kws v hfind hstr]
  have hcf : compile_func ⟨nm, .call (.name id) args kws⟩ S =
      .error (oidErrMsg (.call (.name id) args kws)) := by
    simp only [compile_func, hrw]
  exact ⟨hcf, by simp only [ensureCompiled, hcf]⟩

/-- Witness for C7's amended theorem: `Select(["0"], oid=3)` under the
compile-time depth-first strategy. -/
theorem oid_nonliteral_fails_compile_eagerly_witness :
    compile_func ⟨"g", .call (.name "Select") (.cons (.strLit "a") .nil)
        (.cons (some "oid") (.num 3) .nil)⟩ dfsCompile =
      .error (oidErrMsg (.call (.name "Select") (.cons (.strLit "a") .nil)
        (.cons (some "oid") (.num 3) .nil))) ∧
    ensureCompiled ⟨⟨"g", .call (.name "Select") (.cons (.strLit "a") .nil)
        (.cons (some "oid") (.num 3) .nil)⟩, 0, none, none⟩ dfsCompile =
      .error (oidErrMsg (.call (.name "Select") (.cons (.strLit "a") .nil)
        (.cons (some "oid") (.num 3) .nil))) :=
  oid_nonliteral_fails_compile_eagerly dfsCompile "g" "Select"
    (.cons (.strLit "a") .nil) (.cons (some "oid") (.num 3) .nil) (.num 3)
    (by decide) rfl rfl 0 none

/-- C7 counterexample: the exception raised for a non-literal `oid` value
carries the message of generators.py line 19, which is not the message
"site identifier must be a literal string" stated by the claim. -/
theorem oid_error_message_differs :
    compile_func ⟨"g", .call (.name "Select") (.cons (.strLit "a") .nil)
        (.cons (some "oid") (.num 3) .nil)⟩ dfsCompile =
      .error ("Value passed to \x27oid\x27 must be a string in Select(\x27a\x27, oid=3)") ∧
    ("Value passed to \x27oid\x27 must be a string in Select(\x27a\x27, oid=3)" : String) ≠
      "site identifier must be a literal string" :=
  ⟨rfl, by decide⟩

/-- C9: binding is idempotent — compiling the same function definition
against the same strategy instance twice yields callables with identical
observable behavior: any way of running the two compiled results on the
same input gives the same output (in this embedding `process_op` is
side-effect free, as section 4.1 of the spec requires, so the two
results coincide). -/
theorem compile_func_idempotent {ρ ι ω : Type} (fd : PyFuncDef) (S : CStrategy ρ)
    (runC : PyFuncDef × List (String × ρ) → ι → ω)
    (c1 c2 : PyFuncDef × List (String × ρ)) (i : ι)
    (h1 : compile_func fd S = .ok c1) (h2 : compile_func fd S = .ok c2) :
    runC c1 i = runC c2 i := by
  rw [h1] at h2
  cases h2
  rfl

/-- Witness for C9: the two-site body compiled twice against the
compile-time depth-first strategy behaves identically under an observer
returning the emitted binding names. -/
theorem compile_func_idempotent_witness :
    (fun (c : PyFuncDef × List (String × String)) (_ : Unit) => (c.2.map Prod.fst))
        ((⟨"g", .call (.name "dfs_Select") (.cons (.strLit "a") .nil) .nil⟩ : PyFuncDef),
          [("dfs_Select", "resolver:Select")]) () =
      (fun (c : PyFuncDef × List (String × String)) (_ : Unit) => (c.2.map Prod.fst))
        ((⟨"g", .call (.name "dfs_Select") (.cons (.strLit "a") .nil) .nil⟩ : PyFuncDef),
          [("dfs_Select", "resolver:Select")]) () :=
  compile_func_idempotent ⟨"g", .call (.name "Select") (.cons (.strLit "a") .nil) .nil⟩
    dfsCompile (fun c _ => c.2.map Prod.fst) _ _ () rfl rfl

theorem setGenFields_idem {ρ : Type} (sref : Nat) (g : GenObj ρ) :
    setGenFields sref (setGenFields sref g) = setGenFields sref g := rfl

theorem updGens_get {ρ : Type} (sref : Nat) :
    ∀ (gs : List (GenObj ρ)) (i j : Nat),
      (updGens sref gs i).get? j =
        if j = i then (gs.get? i).map (setGenFields sref) else gs.get? j
  | [], i, j => by
    simp [updGens]
  | g :: gs, 0, 0 => by simp [updGens]
  | g :: gs, 0, j + 1 => by simp [updGens]
  | g :: gs, i + 1, 0 => by simp [updGens]
  | g :: gs, i + 1, j + 1 => by
    simp only [updGens, List.get?_cons_succ, updGens_get sref gs i j]
    by_cases hij : j = i
    · simp [hij]
    · simp [hij, fun h => hij (Nat.succ_injective h)]

theorem setStrategyCore_strats {ρ : Type} (env : GlobalEnv ρ) (i sref : Nat) :
    (setStrategyCore env i sref).strats = env.strats := rfl

theorem setStrategyCore_groups {ρ : Type} (env : GlobalEnv ρ) (i sref : Nat) :
    (setStrategyCore env i sref).groups = env.groups := rfl

theorem foldCore_strats {ρ : Type} (sref : Nat) :
    ∀ (ms : List Nat) (env : GlobalEnv ρ), (foldCore sref ms env).strats = env.strats
  | [], _ => rfl
  | m :: rest, env => by
    rw [show foldCore sref (m :: rest) env = foldCore sref rest (setStrategyCore env m sref) from rfl,
      foldCore_strats sref rest]
    rfl

theorem foldCore_groups {ρ : Type} (sref : Nat) :
    ∀ (ms : List Nat) (env : GlobalEnv ρ), (foldCore sref ms env).groups = env.groups
  | [], _ => rfl
  | m :: rest, env => by
    rw [show foldCore sref (m :: rest) env = foldCore sref rest (setStrategyCore env m sref) from rfl,
      foldCore_groups sref rest]
    rfl

theorem foldCore_gens_get {ρ : Type} (sref : Nat) :
    ∀ (ms : List Nat) (env : GlobalEnv ρ) (j : Nat),
      (foldCore sref ms env).gens.get? j =
        if j ∈ ms then (env.gens.get? j).map (setGenFields sref) else env.gens.get? j
  | [], env, j => by simp [foldCore]
  | m :: rest, env, j => by
    rw [show foldCore sref (m :: rest) env = foldCore sref rest (setStrategyCore env m sref) from rfl,
      foldCore_gens_get sref rest]
    have hcore : (setStrategyCore env m sref).gens.get? j =
        if j = m then (env.gens.get? j).map (setGenFields sref) else env.gens.get? j := by
      rw [show (setStrategyCore env m sref).gens = updGens sref env.gens m from rfl,
        updGens_get sref env.gens m j]
      by_cases hjm : j = m
      · simp [hjm]
      · simp [hjm]
    by_cases hr : j ∈ rest
    · rw [if_pos hr, if_pos (List.mem_cons_of_mem m hr), hcore]
      by_cases hjm : j = m
      · rw [if_pos hjm]
        cases henv : env.gens.get? j <;> simp [setGenFields_idem]
      · rw [if_neg hjm]
    · rw [if_neg hr, hcore]
      by_cases hjm : j = m
      · rw [if_pos hjm, if_pos (by simp [hjm])]
      · rw [if_neg hjm, if_neg (by simp [hjm, hr])]

theorem make_strategy_inst {ρ : Type} (mkD mkR : CStrategy ρ) (r : Nat)
    (store : List (CStrategy ρ)) :
    make_strategy mkD mkR (.inst r) store = .ok (r, store) := rfl

theorem set_strategy_ok_spec {ρ : Type} (mkD mkR : CStrategy ρ)
    (env env' : GlobalEnv ρ) (gref : Nat) (spc : StratSpec) (asg : Bool)
    (h : set_strategy mkD mkR env gref spc asg = .ok env') :
    ∃ sref store1, make_strategy mkD mkR spc env.strats = .ok (sref, store1) ∧
      env'.strats = store1 ∧
      env'.gens.get? gref = (env.gens.get? gref).map (setGenFields sref) := by
  rw [set_strategy] at h
  cases hmk : make_strategy mkD mkR spc env.strats with
  | error e => rw [hmk] at h; cases h
  | ok p =>
    rw [hmk] at h
    obtain ⟨sref, store1⟩ := p
    refine ⟨sref, store1, rfl, ?_⟩
    have hself : (setStrategyCore { env with strats := store1 } gref sref).gens.get? gref =
        (env.gens.get? gref).map (setGenFields sref) := by
      rw [show (setStrategyCore { env with strats := store1 } gref sref).gens =
          updGens sref env.gens gref from rfl, updGens_get sref env.gens gref gref]
      simp
    dsimp only at h
    cases asg with
    | false =>
      cases h
      exact ⟨rfl, hself⟩
    | true =>
      rw [if_pos rfl] at h
      cases hgb : ((setStrategyCore { env with strats := store1 } gref sref).gens.get? gref).bind
          (fun g => g.group) with
      | none =>
        rw [hgb] at h
        cases h
        exact ⟨rfl, hself⟩
      | some gname =>
        rw [hgb] at h
        dsimp only at h
        split at h
        · cases h
        · rename_i members hlk
          cases h
          constructor
          · rw [foldCore_strats, setStrategyCore_strats]
          · rw [foldCore_gens_get sref members _ gref]
            by_cases hmem : gref ∈ members
            · rw [if_pos hmem, hself]
              cases henv : env.gens.get? gref <;> simp [setGenFields_idem]
            · rw [if_neg hmem, hself]

/-- C5: `set_strategy` invalidates the memoized compiled callable — after
it returns, the generator's `_compiled_func` is `None` and the callable
the next `__call__` or `generate` will execute is the function freshly
compiled against the newly set strategy, never the previously bound
callable. -/
theorem set_strategy_invalidates_cache {ρ : Type} (mkD mkR : CStrategy ρ)
    (env env' : GlobalEnv ρ) (gref : Nat) (spc : StratSpec) (asg : Bool)
    (h : set_strategy mkD mkR env gref spc asg = .ok env')
    (g' : GenObj ρ) (hg : env'.gens.get? gref = some g')
    (S' : CStrategy ρ) (hS : env'.strats.get? g'.strategyRef = some S') :
    g'.compiledFunc = none ∧
    nextCallable env' gref = some (compile_func g'.func S') := by
  obtain ⟨sref, store1, hmk, hstr, hup⟩ := set_strategy_ok_spec mkD mkR env env' gref spc asg h
  rw [hup] at hg
  cases hg0 : env.gens.get? gref with
  | none => rw [hg0] at hg; cases hg
  | some g0 =>
    rw [hg0] at hg
    cases hg
    refine ⟨rfl, ?_⟩
    rw [nextCallable, hup, hg0]
    dsimp only [Option.map]
    rw [hS]
    rfl

/-- Witness for C5: a one-generator environment whose cache holds a stale
callable; after `set_strategy` to a fresh dfs strategy the cache is clear
and the next callable is freshly compiled. -/
theorem set_strategy_invalidates_cache_witness :
    (GenObj.compiledFunc (ρ := String) ⟨⟨"g", .name "x"⟩, 0, none, none⟩ = none) ∧
    nextCallable
        (⟨[dfsCompile], [⟨⟨"g", .name "x"⟩, 0, none, none⟩], []⟩ : GlobalEnv String) 0 =
      some (compile_func ⟨"g", .name "x"⟩ dfsCompile) :=
  set_strategy_invalidates_cache dfsCompile dfsCompile
    ⟨[], [⟨⟨"g", .name "x"⟩, 5, some (⟨"g", .name "stale"⟩, []), none⟩], []⟩
    ⟨[dfsCompile], [⟨⟨"g", .name "x"⟩, 0, none, none⟩], []⟩
    0 (.named "dfs") true rfl ⟨⟨"g", .name "x"⟩, 0, none, none⟩ rfl dfsCompile rfl

/-- C6: all generators of a group share one strategy instance by
identity — after `A.set_strategy(S)` with group propagation enabled,
every group member (including A) references the exact store slot of `S`
(reference equality), the strategy store itself is unchanged (no copy is
created), and the non-recursive propagation leaves every generator
outside the group untouched. -/
theorem group_propagation_shares_instance {ρ : Type} (mkD mkR : CStrategy ρ)
    (env env' : GlobalEnv ρ) (aref sref : Nat) (gname : String) (members : List Nat)
    (gA : GenObj ρ) (hga : env.gens.get? aref = some gA) (hgrp : gA.group = some gname)
    (hlk : lookupGroup env.groups gname = some members)
    (h : set_strategy mkD mkR env aref (.inst sref) true = .ok env')
    (bref : Nat) (hb : bref ∈ members) (hblen : bref < env.gens.length) :
    ((env'.gens.get? bref).map (fun g => g.strategyRef)) = some sref ∧
    ((env'.gens.get? aref).map (fun g => g.strategyRef)) = some sref ∧
    env'.strats = env.strats ∧
    (∀ c : Nat, c ∉ members → c ≠ aref → env'.gens.get? c = env.gens.get? c) := by
  rw [set_strategy, make_strategy_inst] at h
  dsimp only at h
  rw [if_pos rfl] at h
  have henv1 : ∀ j : Nat,
      (setStrategyCore { env with strats := env.strats } aref sref).gens.get? j =
        if j = aref then (env.gens.get? j).map (setGenFields sref) else env.gens.get? j := by
    intro j
    rw [show (setStrategyCore { env with strats := env.strats } aref sref).gens =
        updGens sref env.gens aref from rfl, updGens_get sref env.gens aref j]
    by_cases hj : j = aref
    · simp [hj]
    · simp [hj]
  have hbind : ((setStrategyCore { env with strats := env.strats } aref sref).gens.get? aref).bind
      (fun g => g.group) = some gname := by
    rw [henv1 aref, if_pos rfl, hga]
    simp [setGenFields, hgrp]
  rw [hbind] at h
  dsimp only at h
  rw [setStrategyCore_groups] at h
  dsimp only at h
  rw [hlk] at h
  cases h
  have hgens : ∀ j : Nat,
      (foldCore sref members (setStrategyCore { env with strats := env.strats } aref sref)).gens.get? j =
        if j ∈ members ∨ j = aref then (env.gens.get? j).map (setGenFields sref)
        else env.gens.get? j := by
    intro j
    rw [foldCore_gens_get sref members _ j, henv1 j]
    by_cases hm : j ∈ members
    · rw [if_pos hm, if_pos (Or.inl hm)]
      by_cases hj : j = aref
      · rw [if_pos hj]
        cases henv : env.gens.get? j <;> simp [setGenFields_idem]
      · rw [if_neg hj]
    · rw [if_neg hm]
      by_cases hj : j = aref
      · rw [if_pos hj, if_pos (Or.inr hj)]
      · rw [if_neg hj, if_neg (by simp [hm, hj])]
  have hgb : env.gens.get? bref = some (env.gens.get ⟨bref, hblen⟩) :=
    List.get?_eq_get hblen
  refine ⟨?_, ?_, ?_, ?_⟩
  · rw [hgens bref, if_pos (Or.inl hb), hgb]
    rfl
  · rw [hgens aref, if_pos (Or.inr rfl), hga]
    rfl
  · rw [foldCore_strats, setStrategyCore_strats]
  · intro c hcm hca
    rw [hgens c, if_neg (by simp [hcm, hca])]

/-- Witness for C6: two generators registered in group `grp`; generator 0
propagates a strategy instance (store slot 1) to generator 1. -/
theorem group_propagation_shares_instance_witness :
    ((((⟨[dfsCompile, dfsCompile],
          [⟨⟨"a", .name "x"⟩, 1, none, some "grp"⟩, ⟨⟨"b", .name "y"⟩, 1, none, some "grp"⟩],
          [("grp", [0, 1])]⟩ : GlobalEnv String)).gens.get? 1).map
        (fun g => g.strategyRef)) = some 1 ∧
    ((((⟨[dfsCompile, dfsCompile],
          [⟨⟨"a", .name "x"⟩, 1, none, some "grp"⟩, ⟨⟨"b", .name "y"⟩, 1, none, some "grp"⟩],
          [("grp", [0, 1])]⟩ : GlobalEnv String)).gens.get? 0).map
        (fun g => g.strategyRef)) = some 1 ∧
    (⟨[dfsCompile, dfsCompile],
        [⟨⟨"a", .name "x"⟩, 1, none, some "grp"⟩, ⟨⟨"b", .name "y"⟩, 1, none, some "grp"⟩],
        [("grp", [0, 1])]⟩ : GlobalEnv String).strats = [dfsCompile, dfsCompile] ∧
    (∀ c : Nat, c ∉ [0, 1] → c ≠ 0 →
      ((⟨[dfsCompile, dfsCompile],
          [⟨⟨"a", .name "x"⟩, 1, none, some "grp"⟩, ⟨⟨"b", .name "y"⟩, 1, none, some "grp"⟩],
          [("grp", [0, 1])]⟩ : GlobalEnv String)).gens.get? c =
        ((⟨[dfsCompile, dfsCompile],
          [⟨⟨"a", .name "x"⟩, 0, some (⟨"a", .name "x"⟩, []), some "grp"⟩,
           ⟨⟨"b", .name "y"⟩, 0, none, some "grp"⟩],
          [("grp", [0, 1])]⟩ : GlobalEnv String)).gens.get? c) :=
  group_propagation_shares_instance dfsCompile dfsCompile
    ⟨[dfsCompile, dfsCompile],
      [⟨⟨"a", .name "x"⟩, 0, some (⟨"a", .name "x"⟩, []), some "grp"⟩,
       ⟨⟨"b", .name "y"⟩, 0, none, some "grp"⟩],
      [("grp", [0, 1])]⟩
    ⟨[dfsCompile, dfsCompile],
      [⟨⟨"a", .name "x"⟩, 1, none, some "grp"⟩, ⟨⟨"b", .name "y"⟩, 1, none, some "grp"⟩],
      [("grp", [0, 1])]⟩
    0 1 "grp" [0, 1] ⟨⟨"a", .name "x"⟩, 0, some (⟨"a", .name "x"⟩, []), some "grp"⟩
    rfl rfl rfl rfl 1 (by decide) (by decide)

/-- C8: a strategy name that is neither `dfs` nor `randomized` fails with
the unrecognized-strategy exception, through `make_strategy` directly,
through `Generator` construction, and through `set_strategy`. -/
theorem unknown_strategy_name_fails {ρ : Type} (mkD mkR : CStrategy ρ)
    (nm : String) (h1 : nm ≠ "dfs") (h2 : nm ≠ "randomized")
    (store : List (CStrategy ρ)) (env : GlobalEnv ρ) (fd : PyFuncDef)
    (grp : Option String) (gref : Nat) (asg : Bool) :
    make_strategy mkD mkR (.named nm) store = .error ("Unrecognized strategy - " ++ nm) ∧
    genInit mkD mkR env fd (.named nm) grp = .error ("Unrecognized strategy - " ++ nm) ∧
    set_strategy mkD mkR env gref (.named nm) asg =
      .error ("Unrecognized strategy - " ++ nm) := by
  have hm : ∀ st : List (CStrategy ρ),
      make_strategy mkD mkR (.named nm) st = .error ("Unrecognized strategy - " ++ nm) := by
    intro st
    simp [make_strategy, h1, h2]
  refine ⟨hm store, ?_, ?_⟩
  · rw [genInit, hm env.strats]
  · rw [set_strategy, hm env.strats]

/-- Witness for C8: the unknown strategy name `bogus`. -/
theorem unknown_strategy_name_fails_witness :
    make_strategy dfsCompile dfsCompile (.named "bogus") [] =
      .error ("Unrecognized strategy - " ++ "bogus") ∧
    genInit dfsCompile dfsCompile ⟨[], [], []⟩ ⟨"g", .name "x"⟩ (.named "bogus") none =
      .error ("Unrecognized strategy - " ++ "bogus") ∧
    set_strategy dfsCompile dfsCompile ⟨[], [], []⟩ 0 (.named "bogus") true =
      .error ("Unrecognized strategy - " ++ "bogus") :=
  unknown_strategy_name_fails dfsCompile dfsCompile "bogus" (by decide) (by decide)
    [] ⟨[], [], []⟩ ⟨"g", .name "x"⟩ none 0 true

/-- C10: constructing a Generator under a group that already has members
discards the strategy supplied to the constructor and makes the new
generator reference the first existing member's strategy instance (the
same store index) from the moment of creation. -/
theorem init_in_existing_group_shares_strategy {ρ : Type} (mkD mkR : CStrategy ρ)
    (env : GlobalEnv ρ) (fd : PyFuncDef) (spc : StratSpec) (gname : String)
    (m : Nat) (rest : List Nat) (g0 : GenObj ρ)
    (hlk : lookupGroup env.groups gname = some (m :: rest))
    (hm : env.gens.get? m = some g0)
    (sref : Nat) (store1 : List (CStrategy ρ))
    (hmk : make_strategy mkD mkR spc env.strats = .ok (sref, store1)) :
    ∃ env' : GlobalEnv ρ,
      genInit mkD mkR env fd spc (some gname) = .ok (env.gens.length, env') ∧
      env'.gens.get? env.gens.length = some ⟨fd, g0.strategyRef, none, some gname⟩ := by
  have hgen : genInit mkD mkR env fd spc (some gname) =
      .ok (env.gens.length,
        ⟨store1, env.gens ++ [⟨fd, g0.strategyRef, none, some gname⟩],
          registerGroup env.groups gname env.gens.length⟩) := by
    rw [genInit, hmk]
    dsimp only
    rw [hlk]
    dsimp only [List.head?]
    rw [hm]
  exact ⟨_, hgen, List.get?_concat_length env.gens _⟩

/-- Witness for C10: a group with one member whose strategy slot is 1; a
new generator constructed with a different strategy still shares slot
1. -/
theorem init_in_existing_group_shares_strategy_witness :
    ∃ env' : GlobalEnv String,
      genInit dfsCompile dfsCompile
          ⟨[dfsCompile, dfsCompile], [⟨⟨"a", .name "x"⟩, 1, none, some "grp"⟩], [("grp", [0])]⟩
          ⟨"b", .name "y"⟩ (.inst 0) (some "grp") =
        .ok (1, env') ∧
      env'.gens.get? 1 = some ⟨⟨"b", .name "y"⟩, 1, none, some "grp"⟩ :=
  init_in_existing_group_shares_strategy dfsCompile dfsCompile
    ⟨[dfsCompile, dfsCompile], [⟨⟨"a", .name "x"⟩, 1, none, some "grp"⟩], [("grp", [0])]⟩
    ⟨"b", .name "y"⟩ (.inst 0) "grp" 0 [] ⟨⟨"a", .name "x"⟩, 1, none, some "grp"⟩
    rfl rfl 0 [dfsCompile, dfsCompile] rfl

end Atlas
